import Mathlib

/-!
# gstreamer-imx: the IPU physical-memory allocator (`src/ipu/allocator.c`)

A shallow embedding of the four virtual functions of `GstImxIpuAllocator`:

* `gst_imx_ipu_alloc_phys_mem`
* `gst_imx_ipu_free_phys_mem`
* `gst_imx_ipu_map_phys_mem`
* `gst_imx_ipu_unmap_phys_mem`

The kernel is the environment: the value a system call returns is an argument of the
embedded function, and the system calls a function issues are returned as a list, so
that "which syscalls were issued" is an ordinary value one can state theorems about.

Conventions.

* Pointers are integers; `NULL` is `0` and `MAP_FAILED` is `(void *) -1`.
* `mapping_refcount` is a GLib `gint` handled with `g_atomic_int_add`,
  `g_atomic_int_set` and `g_atomic_int_dec_and_test`: a 32-bit two's complement
  integer whose arithmetic wraps. It is an `Int` reduced by `wrap32` after every
  arithmetic operation.
* Physical addresses and sizes are only copied and cast between word-sized types,
  never computed with; the casts are taken to be value preserving.
* `g_assert` aborts the process: a call that ends in a failed assertion has no result
  (`none`).
-/

namespace GstImxIpu

/-! ## Constants of the headers the file includes -/

/-- The null pointer. -/
def NULL : Int := 0

/-- The error value of `mmap`, `((void *) -1)` in `<sys/mman.h>`. -/
def MAP_FAILED : Int := -1

/-- Protection bit `PROT_READ` of `<sys/mman.h>`. -/
def PROT_READ : Nat := 1

/-- Protection bit `PROT_WRITE` of `<sys/mman.h>`. -/
def PROT_WRITE : Nat := 2

/-- Mapping kind `MAP_SHARED` of `<sys/mman.h>`. -/
def MAP_SHARED : Nat := 1

/-- Flag `GST_MAP_READ` of `GstMapFlags` (`GST_LOCK_FLAG_READ`, bit 0). -/
def GST_MAP_READ : Nat := 1

/-- Flag `GST_MAP_WRITE` of `GstMapFlags` (`GST_LOCK_FLAG_WRITE`, bit 1). -/
def GST_MAP_WRITE : Nat := 2

/-- Smallest `gint`. -/
def G_MININT : Int := -2147483648

/-- Largest `gint`. -/
def G_MAXINT : Int := 2147483647

/-- Reduction of an integer to the 32-bit two's complement range of a `gint`: the
atomic operations of GLib compute modulo 2^32 (they are the compiler's `__atomic`
builtins, which wrap), so an increment of `G_MAXINT` gives `G_MININT`. -/
def wrap32 (x : Int) : Int := (x + 2147483648) % 4294967296 - 2147483648

/-- The values a `gint` can hold. -/
def IsGInt (x : Int) : Prop := G_MININT ≤ x ∧ x ≤ G_MAXINT

instance (x : Int) : Decidable (IsGInt x) := by
  unfold IsGInt; infer_instance

/-! ## Data model -/

/-- The fields of `GstImxPhysMemory` that `allocator.c` reads or writes
(`maxsize` is `mem.maxsize` of the embedded `GstMemory`). The mutex is left to the
concurrent model below: in a single thread every `g_mutex_lock` finds it free. -/
structure GstImxPhysMemory where
  maxsize : Nat
  mapped_virt_addr : Int
  phys_addr : Nat
  mapping_flags : Nat
  mapping_refcount : Int
  internal : Int
deriving DecidableEq, Repr

/-- A system call issued by the allocator, with the arguments passed to it. -/
inductive Syscall where
  | ioctl_IPU_ALLOC (fd : Int) (m : Int)
  | ioctl_IPU_FREE (fd : Int) (m : Nat)
  | mmap (addr : Int) (length : Int) (prot : Nat) (flags : Nat) (fd : Int) (offset : Nat)
  | munmap (addr : Int) (length : Nat)
deriving DecidableEq, Repr

/-- Whether a system call is an `mmap`. -/
def Syscall.isMmap : Syscall → Bool
  | .mmap _ _ _ _ _ _ => true
  | _ => false

/-- Whether a system call is a `munmap`. -/
def Syscall.isMunmap : Syscall → Bool
  | .munmap _ _ => true
  | _ => false

/-- The block invariant of the data model:
`mapping_refcount == 0` if and only if `mapped_virt_addr == NULL`. -/
def BlockInv (b : GstImxPhysMemory) : Prop :=
  b.mapping_refcount = 0 ↔ b.mapped_virt_addr = NULL

instance (b : GstImxPhysMemory) : Decidable (BlockInv b) := by
  unfold BlockInv; infer_instance

/-! ## The allocator functions -/

/-- `gst_imx_ipu_alloc_phys_mem` (allocator.c:56-76). `ret` is what
`ioctl(fd, IPU_ALLOC, &m)` returns and `m_out` what the driver left in `m`.
Result: the `gboolean` returned, the block afterwards, the system calls issued. -/
def gst_imx_ipu_alloc_phys_mem (fd : Int) (ret : Int) (m_out : Nat)
    (memory : GstImxPhysMemory) (size : Int) : Bool × GstImxPhysMemory × List Syscall :=
  let m := size
  let calls := [Syscall.ioctl_IPU_ALLOC fd m]
  let memory := { memory with internal := NULL }
  if ret < 0 then
    (false, { memory with phys_addr := 0 }, calls)
  else
    (true, { memory with phys_addr := m_out }, calls)

/-- `gst_imx_ipu_free_phys_mem` (allocator.c:79-96). `ret` is what
`ioctl(fd, IPU_FREE, &m)` returns. -/
def gst_imx_ipu_free_phys_mem (fd : Int) (ret : Int)
    (memory : GstImxPhysMemory) : Bool × GstImxPhysMemory × List Syscall :=
  let m := memory.phys_addr
  let calls := [Syscall.ioctl_IPU_FREE fd m]
  if ret < 0 then (false, memory, calls) else (true, memory, calls)

/-- The protection bits computed at allocator.c:101,113-116. -/
def mapProt (flags : Nat) : Nat :=
  let prot := 0
  let prot := if flags &&& GST_MAP_READ ≠ 0 then prot ||| PROT_READ else prot
  let prot := if flags &&& GST_MAP_WRITE ≠ 0 then prot ||| PROT_WRITE else prot
  prot

/-- The condition of the `g_assert` at allocator.c:132. -/
def flagsCompatible (mapping_flags flags : Nat) : Prop :=
  mapping_flags &&& GST_MAP_WRITE ≠ 0 ∨ ¬ (flags &&& GST_MAP_WRITE ≠ 0)

instance (a b : Nat) : Decidable (flagsCompatible a b) := by
  unfold flagsCompatible; infer_instance

/-- `gst_imx_ipu_map_phys_mem` (allocator.c:99-138). `mmapRet` is what `mmap` returns
if it is called. Result: `none` when the `g_assert` fails, otherwise the pointer
returned, the block afterwards and the system calls issued. -/
def gst_imx_ipu_map_phys_mem (fd : Int) (mmapRet : Int)
    (phys_mem : GstImxPhysMemory) (size : Int) (flags : Nat) :
    Option (Int × GstImxPhysMemory × List Syscall) :=
  -- g_atomic_int_add returns the value before the addition
  let old := phys_mem.mapping_refcount
  let phys_mem := { phys_mem with mapping_refcount := wrap32 (old + 1) }
  if old = 0 then
    let phys_mem := { phys_mem with mapping_flags := flags }
    let prot := mapProt flags
    let calls := [Syscall.mmap 0 size prot MAP_SHARED fd phys_mem.phys_addr]
    let phys_mem := { phys_mem with mapped_virt_addr := mmapRet }
    if phys_mem.mapped_virt_addr = MAP_FAILED then
      let phys_mem := { phys_mem with mapped_virt_addr := NULL }
      let phys_mem := { phys_mem with mapping_refcount := 0 }
      some (NULL, phys_mem, calls)
    else
      some (phys_mem.mapped_virt_addr, phys_mem, calls)
  else
    if flagsCompatible phys_mem.mapping_flags flags then
      some (phys_mem.mapped_virt_addr, phys_mem, [])
    else
      none

/-- `gst_imx_ipu_unmap_phys_mem` (allocator.c:141-152). `munmapRet` is what `munmap`
returns if it is called (`-1` on failure); the function returns `void`, so the result
is the block afterwards and the system calls issued. -/
def gst_imx_ipu_unmap_phys_mem (munmapRet : Int)
    (phys_mem : GstImxPhysMemory) : GstImxPhysMemory × List Syscall :=
  -- g_atomic_int_dec_and_test: decrement, TRUE when the result is zero
  let new := wrap32 (phys_mem.mapping_refcount - 1)
  let phys_mem := { phys_mem with mapping_refcount := new }
  if new = 0 then
    let calls := [Syscall.munmap phys_mem.mapped_virt_addr phys_mem.maxsize]
    -- a failing munmap is logged only
    let _logged := decide (munmapRet = -1)
    ({ phys_mem with mapped_virt_addr := NULL }, calls)
  else
    (phys_mem, [])

/-! ## Sequences of calls by one thread -/

/-- One call a client makes on a block, with what the kernel answers if the call
reaches the system call. -/
inductive Call where
  | map (size : Int) (flags : Nat) (mmapRet : Int)
  | unmap (munmapRet : Int)
deriving DecidableEq, Repr

/-- Whether a call is a map call. -/
def Call.isMap : Call → Bool
  | .map _ _ _ => true
  | .unmap _ => false

/-- Number of map calls in a sequence. -/
def countMaps (cs : List Call) : Nat := (cs.filter Call.isMap).length

/-- Number of unmap calls in a sequence. -/
def countUnmaps (cs : List Call) : Nat := (cs.filter (fun c => !c.isMap)).length

/-- Number of `munmap` system calls in a list of system calls. -/
def munmapCount (l : List Syscall) : Nat := (l.filter Syscall.isMunmap).length

/-- One call: the block afterwards, the pointer returned (map calls only) and the
system calls issued; `none` when the call aborts. -/
def runCall (fd : Int) (b : GstImxPhysMemory) :
    Call → Option (GstImxPhysMemory × List Int × List Syscall)
  | .map size flags mmapRet =>
    match gst_imx_ipu_map_phys_mem fd mmapRet b size flags with
    | none => none
    | some (p, b1, calls) => some (b1, [p], calls)
  | .unmap munmapRet =>
    some ((gst_imx_ipu_unmap_phys_mem munmapRet b).1, [],
          (gst_imx_ipu_unmap_phys_mem munmapRet b).2)

/-- A sequence of calls made one after the other on the same block: the block at the
end, the pointers the map calls returned and the system calls issued, in order. -/
def runCalls (fd : Int) (b : GstImxPhysMemory) :
    List Call → Option (GstImxPhysMemory × List Int × List Syscall)
  | [] => some (b, [], [])
  | c :: cs =>
    match runCall fd b c with
    | none => none
    | some (b1, rets1, calls1) =>
      match runCalls fd b1 cs with
      | none => none
      | some (b2, rets2, calls2) => some (b2, rets1 ++ rets2, calls1 ++ calls2)

/-- Number of unmap calls in a sequence that bring the balance "maps minus unmaps"
to zero, the balance before the sequence being `h`. -/
def returnsToZero : Int → List Call → Nat
  | _, [] => 0
  | h, .map _ _ _ :: cs => returnsToZero (h + 1) cs
  | h, .unmap _ :: cs => (if h - 1 = 0 then 1 else 0) + returnsToZero (h - 1) cs

/-! ## Two threads mapping the same block

Every access to the shared block, every mutex operation and every system call of
`gst_imx_ipu_map_phys_mem` is one atomic step; a schedule picks the thread that makes
the next step. -/

/-- Program points of `gst_imx_ipu_map_phys_mem`, named after what the next step does,
with the line of allocator.c. -/
inductive Pc where
  /-- Line 109: `g_atomic_int_add(&phys_mem->mapping_refcount, 1)` and the test. -/
  | atomicAdd
  /-- Line 111: `g_mutex_lock`. -/
  | mutexLock
  /-- Line 112: `phys_mem->mapping_flags = flags` (113-116 are thread local). -/
  | storeFlags
  /-- Line 118: the `mmap` system call. -/
  | callMmap
  /-- Line 118: the assignment of its result to `mapped_virt_addr`. -/
  | storeVirt (r : Int)
  /-- Line 119: `if (phys_mem->mapped_virt_addr == MAP_FAILED)`. -/
  | testFailed
  /-- Line 121: `phys_mem->mapped_virt_addr = NULL`. -/
  | clearVirt
  /-- Line 122: `g_atomic_int_set(&phys_mem->mapping_refcount, 0)`. -/
  | resetRefcount
  /-- Lines 125-126: `g_mutex_unlock` and `return NULL`. -/
  | unlockFailed
  /-- Line 128: `g_mutex_unlock`. -/
  | mutexUnlock
  /-- Line 132: the `g_assert` on the flags. -/
  | assertFlags
  /-- Line 137: `return phys_mem->mapped_virt_addr`. -/
  | loadVirt
  /-- The call has returned `p`. -/
  | returned (p : Int)
  /-- The assertion failed. -/
  | aborted
deriving DecidableEq, Repr

/-- A thread inside one call of `gst_imx_ipu_map_phys_mem`: its arguments, what `mmap`
answers if this thread calls it, and where it is. -/
structure MapThread where
  size : Int
  flags : Nat
  mmapRet : Int
  pc : Pc
deriving DecidableEq, Repr

/-- What the two threads share: the block, the owner of its mutex and the system calls
issued so far. -/
structure Shared where
  block : GstImxPhysMemory
  mutexOwner : Option Bool
  calls : List Syscall
deriving DecidableEq, Repr

/-- One step of thread `tid`; `none` when the thread cannot move (it waits for the
mutex, or its call is over). -/
def stepMap (fd : Int) (tid : Bool) (s : Shared) (t : MapThread) :
    Option (Shared × MapThread) :=
  match t.pc with
  | .atomicAdd =>
    let old := s.block.mapping_refcount
    let s1 := { s with block := { s.block with mapping_refcount := wrap32 (old + 1) } }
    some (s1, { t with pc := if old = 0 then .mutexLock else .assertFlags })
  | .mutexLock =>
    match s.mutexOwner with
    | none => some ({ s with mutexOwner := some tid }, { t with pc := .storeFlags })
    | some _ => none
  | .storeFlags =>
    some ({ s with block := { s.block with mapping_flags := t.flags } },
          { t with pc := .callMmap })
  | .callMmap =>
    some ({ s with calls := s.calls ++
              [Syscall.mmap 0 t.size (mapProt t.flags) MAP_SHARED fd s.block.phys_addr] },
          { t with pc := .storeVirt t.mmapRet })
  | .storeVirt r =>
    some ({ s with block := { s.block with mapped_virt_addr := r } },
          { t with pc := .testFailed })
  | .testFailed =>
    some (s, { t with pc := if s.block.mapped_virt_addr = MAP_FAILED then .clearVirt
                            else .mutexUnlock })
  | .clearVirt =>
    some ({ s with block := { s.block with mapped_virt_addr := NULL } },
          { t with pc := .resetRefcount })
  | .resetRefcount =>
    some ({ s with block := { s.block with mapping_refcount := 0 } },
          { t with pc := .unlockFailed })
  | .unlockFailed =>
    some ({ s with mutexOwner := none }, { t with pc := .returned NULL })
  | .mutexUnlock =>
    some ({ s with mutexOwner := none }, { t with pc := .loadVirt })
  | .assertFlags =>
    some (s, { t with pc := if flagsCompatible s.block.mapping_flags t.flags
                            then .loadVirt else .aborted })
  | .loadVirt =>
    some (s, { t with pc := .returned s.block.mapped_virt_addr })
  | .returned _ => none
  | .aborted => none

/-- The two threads and what they share. -/
structure TwoThreads where
  shared : Shared
  threadA : MapThread
  threadB : MapThread
deriving DecidableEq, Repr

/-- A schedule: at each step, `false` lets thread A move and `true` thread B. A
schedule that picks a thread which cannot move is not a run (`none`). -/
def runSchedule (fd : Int) (w : TwoThreads) : List Bool → Option TwoThreads
  | [] => some w
  | false :: rest =>
    match stepMap fd false w.shared w.threadA with
    | none => none
    | some (s, t) => runSchedule fd { w with shared := s, threadA := t } rest
  | true :: rest =>
    match stepMap fd true w.shared w.threadB with
    | none => none
    | some (s, t) => runSchedule fd { w with shared := s, threadB := t } rest

/-- Two threads about to call `gst_imx_ipu_map_phys_mem` on block `b`. -/
def twoMappers (b : GstImxPhysMemory) (sizeA : Int) (flagsA : Nat) (mmapRetA : Int)
    (sizeB : Int) (flagsB : Nat) (mmapRetB : Int) : TwoThreads :=
  { shared := { block := b, mutexOwner := none, calls := [] }
    threadA := { size := sizeA, flags := flagsA, mmapRet := mmapRetA, pc := .atomicAdd }
    threadB := { size := sizeB, flags := flagsB, mmapRet := mmapRetB, pc := .atomicAdd } }

/-- A block as it is right after allocation: nothing mapped. -/
def freshBlock (maxsize phys_addr : Nat) : GstImxPhysMemory :=
  { maxsize := maxsize, mapped_virt_addr := NULL, phys_addr := phys_addr,
    mapping_flags := 0, mapping_refcount := 0, internal := NULL }

/-! ## Basic facts -/

theorem wrap32_eq_self {x : Int} (h : IsGInt x) : wrap32 x = x := by
  unfold IsGInt G_MININT G_MAXINT at h
  unfold wrap32
  omega

theorem wrap32_succ_ne_zero {x : Int} (h : IsGInt x) (hx : x ≠ -1) : wrap32 (x + 1) ≠ 0 := by
  unfold IsGInt G_MININT G_MAXINT at h
  unfold wrap32
  omega

theorem wrap32_pred {x : Int} (h : IsGInt x) (hx : 1 ≤ x) : wrap32 (x - 1) = x - 1 := by
  unfold IsGInt G_MININT G_MAXINT at h
  unfold wrap32
  omega

theorem mapProt_cases (flags : Nat) :
    mapProt flags =
      (if flags &&& GST_MAP_READ ≠ 0 then PROT_READ else 0) |||
      (if flags &&& GST_MAP_WRITE ≠ 0 then PROT_WRITE else 0) := by
  unfold mapProt
  by_cases hr : flags &&& GST_MAP_READ ≠ 0 <;> by_cases hw : flags &&& GST_MAP_WRITE ≠ 0 <;>
    simp [hr, hw]

/-- A first mapper (refcount 0) always returns, after exactly one `mmap`. -/
theorem map_first (fd mmapRet : Int) (b : GstImxPhysMemory) (size : Int) (flags : Nat)
    (h0 : b.mapping_refcount = 0) :
    gst_imx_ipu_map_phys_mem fd mmapRet b size flags =
      if mmapRet = MAP_FAILED then
        some (NULL, { b with mapping_flags := flags, mapped_virt_addr := NULL,
                             mapping_refcount := 0 },
              [Syscall.mmap 0 size (mapProt flags) MAP_SHARED fd b.phys_addr])
      else
        some (mmapRet, { b with mapping_flags := flags, mapped_virt_addr := mmapRet,
                                mapping_refcount := 1 },
              [Syscall.mmap 0 size (mapProt flags) MAP_SHARED fd b.phys_addr]) := by
  unfold gst_imx_ipu_map_phys_mem
  simp only [h0, if_true]
  have h1 : wrap32 (0 + 1) = 1 := by decide
  rw [h1]

/-- A later mapper (refcount not 0) issues no system call and only touches the
refcount; it returns exactly when the assertion holds. -/
theorem map_later (fd mmapRet : Int) (b : GstImxPhysMemory) (size : Int) (flags : Nat)
    (h0 : b.mapping_refcount ≠ 0) :
    gst_imx_ipu_map_phys_mem fd mmapRet b size flags =
      if flagsCompatible b.mapping_flags flags then
        some (b.mapped_virt_addr,
              { b with mapping_refcount := wrap32 (b.mapping_refcount + 1) }, [])
      else none := by
  unfold gst_imx_ipu_map_phys_mem
  simp only [h0, if_false]

theorem unmap_eq (r : Int) (b : GstImxPhysMemory) :
    gst_imx_ipu_unmap_phys_mem r b =
      if wrap32 (b.mapping_refcount - 1) = 0 then
        ({ b with mapping_refcount := wrap32 (b.mapping_refcount - 1),
                  mapped_virt_addr := NULL },
         [Syscall.munmap b.mapped_virt_addr b.maxsize])
      else
        ({ b with mapping_refcount := wrap32 (b.mapping_refcount - 1) }, []) := by
  unfold gst_imx_ipu_unmap_phys_mem
  by_cases h : wrap32 (b.mapping_refcount - 1) = 0 <;> simp [h]

theorem runCalls_cons (fd : Int) (b : GstImxPhysMemory) (c : Call) (cs : List Call) :
    runCalls fd b (c :: cs) =
      match runCall fd b c with
      | none => none
      | some (b1, rets1, calls1) =>
        match runCalls fd b1 cs with
        | none => none
        | some (b2, rets2, calls2) => some (b2, rets1 ++ rets2, calls1 ++ calls2) := rfl

theorem runCalls_append (fd : Int) (l1 l2 : List Call) (b : GstImxPhysMemory) :
    runCalls fd b (l1 ++ l2) =
      match runCalls fd b l1 with
      | none => none
      | some (b1, rets1, calls1) =>
        match runCalls fd b1 l2 with
        | none => none
        | some (b2, rets2, calls2) => some (b2, rets1 ++ rets2, calls1 ++ calls2) := by
  induction l1 generalizing b with
  | nil =>
    simp only [List.nil_append, runCalls]
    cases runCalls fd b l2 with
    | none => rfl
    | some r => simp
  | cons c cs ih =>
    simp only [List.cons_append, runCalls_cons]
    cases h1 : runCall fd b c with
    | none => rfl
    | some r1 =>
      obtain ⟨b1, rets1, calls1⟩ := r1
      simp only [ih]
      cases h2 : runCalls fd b1 cs with
      | none => rfl
      | some r2 =>
        obtain ⟨b2, rets2, calls2⟩ := r2
        simp only
        cases h3 : runCalls fd b2 l2 with
        | none => rfl
        | some r3 => simp [List.append_assoc]

theorem wrap32_eq_zero_iff {h : Int} (h1 : -4294967296 < h) (h2 : h < 4294967296) :
    wrap32 h = 0 ↔ h = 0 := by
  unfold wrap32
  omega

theorem wrap32_wrap32_succ (h : Int) : wrap32 (wrap32 h + 1) = wrap32 (h + 1) := by
  unfold wrap32
  omega

theorem wrap32_wrap32_pred (h : Int) : wrap32 (wrap32 h - 1) = wrap32 (h - 1) := by
  unfold wrap32
  omega

theorem runCalls_append_some {fd : Int} {l1 l2 : List Call} {b b1 b2 : GstImxPhysMemory}
    {rets1 rets2 : List Int} {calls1 calls2 : List Syscall}
    (h1 : runCalls fd b l1 = some (b1, rets1, calls1))
    (h2 : runCalls fd b1 l2 = some (b2, rets2, calls2)) :
    runCalls fd b (l1 ++ l2) = some (b2, rets1 ++ rets2, calls1 ++ calls2) := by
  rw [runCalls_append, h1]
  simp only
  rw [h2]

/-- Map calls on a mapped block whose refcount stands for a count `h >= 1`, all
passing the assertion, the count staying below 2^32: no system call, the recorded
address returned every time, the refcount counting modulo 2^32. -/
theorem runCalls_later_maps (fd : Int) (rest : List Call) (b : GstImxPhysMemory) (h : Int)
    (hrc : b.mapping_refcount = wrap32 h) (hpos : 1 ≤ h)
    (hmax : h + rest.length ≤ 4294967295)
    (hrest : ∀ c ∈ rest, ∃ size flags r, c = Call.map size flags r ∧
      (b.mapping_flags &&& GST_MAP_WRITE ≠ 0 ∨ flags &&& GST_MAP_WRITE = 0)) :
    runCalls fd b rest =
      some ({ b with mapping_refcount := wrap32 (h + rest.length) },
            List.replicate rest.length b.mapped_virt_addr, []) := by
  induction rest generalizing b h with
  | nil =>
    simp only [runCalls, List.length_nil, Nat.cast_zero, add_zero, List.replicate_zero,
      ← hrc]
  | cons c cs ih =>
    obtain ⟨size, flags, r, hc, hcompat⟩ := hrest c (List.mem_cons_self _ _)
    subst hc
    have hlen : ((Call.map size flags r :: cs).length : Int) = (cs.length : Int) + 1 := by
      simp
    rw [hlen] at hmax
    have hne : b.mapping_refcount ≠ 0 := by
      rw [hrc]
      intro hz
      have := (wrap32_eq_zero_iff (by omega) (by omega)).mp hz
      omega
    have hfc : flagsCompatible b.mapping_flags flags := by
      unfold flagsCompatible
      rcases hcompat with h | h
      · exact Or.inl h
      · exact Or.inr (by simp [h])
    have hstep : runCall fd b (Call.map size flags r) =
        some ({ b with mapping_refcount := wrap32 (h + 1) },
              [b.mapped_virt_addr], []) := by
      simp only [runCall]
      rw [map_later fd r b size flags hne, if_pos hfc, hrc, wrap32_wrap32_succ]
    rw [runCalls_cons, hstep]
    simp only
    rw [ih { b with mapping_refcount := wrap32 (h + 1) } (h + 1) rfl (by omega)
      (by omega) (fun c hc => hrest c (List.mem_cons_of_mem _ hc))]
    simp only [List.replicate_succ, List.singleton_append, List.nil_append, hlen,
      Option.some.injEq, Prod.mk.injEq, and_true, true_and]
    refine ⟨?_, ?_⟩
    · have hsum : h + 1 + (cs.length : Int) = h + ((cs.length : Int) + 1) := by omega
      rw [hsum]
    · simp [List.replicate_succ]

/-- `N` map calls in a row on an unmapped block, the `mmap` of the first succeeding
and the later ones passing the assertion, `N` below 2^32. -/
theorem runCalls_maps (fd : Int) (b : GstImxPhysMemory) (size0 : Int) (flags0 : Nat)
    (A : Int) (rest : List Call)
    (h0 : b.mapping_refcount = 0) (hA : A ≠ MAP_FAILED)
    (hrest : ∀ c ∈ rest, ∃ size flags r, c = Call.map size flags r ∧
      (flags0 &&& GST_MAP_WRITE ≠ 0 ∨ flags &&& GST_MAP_WRITE = 0))
    (hN : (rest.length : Int) + 1 ≤ 4294967295) :
    runCalls fd b (Call.map size0 flags0 A :: rest) =
      some ({ b with mapping_flags := flags0, mapped_virt_addr := A,
                     mapping_refcount := wrap32 ((rest.length : Int) + 1) },
            List.replicate (rest.length + 1) A,
            [Syscall.mmap 0 size0 (mapProt flags0) MAP_SHARED fd b.phys_addr]) := by
  have hstep : runCall fd b (Call.map size0 flags0 A) =
      some ({ b with mapping_flags := flags0, mapped_virt_addr := A, mapping_refcount := 1 },
            [A], [Syscall.mmap 0 size0 (mapProt flags0) MAP_SHARED fd b.phys_addr]) := by
    simp only [runCall]
    rw [map_first fd A b size0 flags0 h0, if_neg hA]
  rw [runCalls_cons, hstep]
  simp only
  rw [runCalls_later_maps fd rest
    { b with mapping_flags := flags0, mapped_virt_addr := A, mapping_refcount := 1 } 1
    (by show (1 : Int) = wrap32 1; decide) (by decide) (by omega) hrest]
  simp only [List.replicate_succ, List.singleton_append, List.append_nil,
    Option.some.injEq, Prod.mk.injEq, and_true, true_and]
  rw [add_comm]

/-- Unmap calls on a block with no address recorded whose refcount stands for a count
`h <= 0`, the count staying above -2^32: no system call, the refcount counting down
modulo 2^32. -/
theorem runCalls_unmaps_below_zero (fd : Int) (r : Int) (n : Nat) (b : GstImxPhysMemory)
    (h : Int) (hrc : b.mapping_refcount = wrap32 h) (hle : h ≤ 0)
    (hmin : -4294967296 < h - n) :
    runCalls fd b (List.replicate n (Call.unmap r)) =
      some ({ b with mapping_refcount := wrap32 (h - n) }, [], []) := by
  induction n generalizing b h with
  | zero =>
    simp only [List.replicate_zero, runCalls, Nat.cast_zero, sub_zero, ← hrc]
  | succ n ih =>
    simp only [Nat.cast_add, Nat.cast_one] at hmin
    have hnz : wrap32 (h - 1) ≠ 0 := by
      intro hz
      have := (wrap32_eq_zero_iff (by omega) (by omega)).mp hz
      omega
    have hstep : runCall fd b (Call.unmap r) =
        some ({ b with mapping_refcount := wrap32 (h - 1) }, [], []) := by
      simp only [runCall]
      rw [unmap_eq, hrc, wrap32_wrap32_pred, if_neg hnz]
    rw [List.replicate_succ, runCalls_cons, hstep]
    simp only
    rw [ih { b with mapping_refcount := wrap32 (h - 1) } (h - 1) rfl (by omega) (by omega)]
    simp only [List.append_nil, Nat.cast_add, Nat.cast_one, Option.some.injEq,
      Prod.mk.injEq, and_true]
    have hsum : h - 1 - (n : Int) = h - ((n : Int) + 1) := by omega
    rw [hsum]

theorem runCalls_cons_some {fd : Int} {b b2 : GstImxPhysMemory} {c : Call} {cs : List Call}
    {rets : List Int} {calls : List Syscall}
    (h : runCalls fd b (c :: cs) = some (b2, rets, calls)) :
    ∃ b1 rets1 calls1 rets2 calls2,
      runCall fd b c = some (b1, rets1, calls1) ∧
      runCalls fd b1 cs = some (b2, rets2, calls2) ∧
      rets = rets1 ++ rets2 ∧ calls = calls1 ++ calls2 := by
  rw [runCalls_cons] at h
  rcases h1 : runCall fd b c with _ | ⟨b1, rets1, calls1⟩
  · rw [h1] at h
    cases h
  · rw [h1] at h
    simp only at h
    rcases h2 : runCalls fd b1 cs with _ | ⟨b3, rets2, calls2⟩
    · rw [h2] at h
      cases h
    · rw [h2] at h
      simp only [Option.some.injEq, Prod.mk.injEq] at h
      obtain ⟨hb, hr, hc⟩ := h
      subst hb
      exact ⟨b1, rets1, calls1, rets2, calls2, rfl, h2, hr.symm, hc.symm⟩

theorem countMaps_map (size : Int) (flags : Nat) (r : Int) (cs : List Call) :
    countMaps (Call.map size flags r :: cs) = countMaps cs + 1 := by
  simp [countMaps, Call.isMap]

theorem countMaps_unmap (r : Int) (cs : List Call) :
    countMaps (Call.unmap r :: cs) = countMaps cs := by
  simp [countMaps, Call.isMap]

theorem countUnmaps_map (size : Int) (flags : Nat) (r : Int) (cs : List Call) :
    countUnmaps (Call.map size flags r :: cs) = countUnmaps cs := by
  simp [countUnmaps, Call.isMap]

theorem countUnmaps_unmap (r : Int) (cs : List Call) :
    countUnmaps (Call.unmap r :: cs) = countUnmaps cs + 1 := by
  simp [countUnmaps, Call.isMap]

theorem munmapCount_append (l1 l2 : List Syscall) :
    munmapCount (l1 ++ l2) = munmapCount l1 + munmapCount l2 := by
  simp [munmapCount]

/-- With a refcount standing for a negative count and no address recorded, a map call
that returns returns NULL: a run whose map calls all return non-null addresses has no
map call. -/
theorem runCalls_negative (fd : Int) (cs : List Call) (b b2 : GstImxPhysMemory) (h : Int)
    (rets : List Int) (calls : List Syscall)
    (hrc : b.mapping_refcount = wrap32 h)
    (hneg : h < 0) (hnull : b.mapped_virt_addr = NULL)
    (hmin : -4294967296 < h - countUnmaps cs)
    (hrun : runCalls fd b cs = some (b2, rets, calls))
    (hsucc : ∀ p ∈ rets, p ≠ NULL) : countMaps cs = 0 := by
  induction cs generalizing b h rets calls with
  | nil => rfl
  | cons c cs ih =>
    obtain ⟨b1, rets1, calls1, rets2, calls2, h1, h2, hr, -⟩ := runCalls_cons_some hrun
    cases c with
    | map size flags r =>
      exfalso
      have hne : b.mapping_refcount ≠ 0 := by
        rw [hrc]
        intro hz
        have := (wrap32_eq_zero_iff (by omega) (by omega)).mp hz
        omega
      simp only [runCall] at h1
      rw [map_later fd r b size flags hne] at h1
      by_cases hc : flagsCompatible b.mapping_flags flags
      · rw [if_pos hc] at h1
        simp only [Option.some.injEq, Prod.mk.injEq] at h1
        obtain ⟨-, hr1, -⟩ := h1
        exact hsucc b.mapped_virt_addr (by rw [hr, ← hr1]; simp) hnull
      · rw [if_neg hc] at h1
        cases h1
    | unmap r =>
      rw [countUnmaps_unmap] at hmin
      simp only [Nat.cast_add, Nat.cast_one] at hmin
      simp only [runCall, Option.some.injEq, Prod.mk.injEq] at h1
      obtain ⟨hb1, hr1, -⟩ := h1
      have hnz : wrap32 (h - 1) ≠ 0 := by
        intro hz
        have := (wrap32_eq_zero_iff (by omega) (by omega)).mp hz
        omega
      rw [unmap_eq, hrc, wrap32_wrap32_pred, if_neg hnz] at hb1
      dsimp only at hb1
      subst hb1
      subst hr1
      rw [countMaps_unmap]
      refine ih { b with mapping_refcount := wrap32 (h - 1) } (h - 1) rets2 calls2
        rfl (by omega) hnull (by omega) h2 ?_
      intro p hp
      exact hsucc p (by rw [hr]; simp [hp])

/-- Balanced runs from a block whose refcount stands for a count `h >= 0` and which
records an address exactly when `h` is not 0, the count staying below 2^32. -/
theorem runCalls_balanced (fd : Int) (cs : List Call) (b b2 : GstImxPhysMemory) (h : Int)
    (rets : List Int) (calls : List Syscall)
    (hrc : b.mapping_refcount = wrap32 h)
    (hpos : 0 ≤ h) (hinv : h = 0 ↔ b.mapped_virt_addr = NULL)
    (hmax : h + countMaps cs ≤ 4294967295)
    (hbal : h + countMaps cs = countUnmaps cs)
    (hrun : runCalls fd b cs = some (b2, rets, calls))
    (hsucc : ∀ p ∈ rets, p ≠ NULL) :
    b2.mapping_refcount = 0 ∧ b2.mapped_virt_addr = NULL ∧
    munmapCount calls = returnsToZero h cs ∧
    ((0 < h ∨ 0 < countMaps cs) → 1 ≤ munmapCount calls) := by
  induction cs generalizing b h rets calls with
  | nil =>
    simp only [runCalls, Option.some.injEq, Prod.mk.injEq] at hrun
    obtain ⟨hb, -, hc⟩ := hrun
    subst hb
    subst hc
    simp only [countMaps, countUnmaps, List.filter_nil, List.length_nil, Nat.cast_zero,
      add_zero] at hbal
    subst hbal
    refine ⟨by rw [hrc]; decide, hinv.mp rfl, rfl, ?_⟩
    intro h
    rcases h with h | h
    · omega
    · simp [countMaps] at h
  | cons c cs ih =>
    obtain ⟨b1, rets1, calls1, rets2, calls2, h1, h2, hr, hcl⟩ := runCalls_cons_some hrun
    have hsucc2 : ∀ p ∈ rets2, p ≠ NULL := fun p hp => hsucc p (by rw [hr]; simp [hp])
    have hzero : b.mapping_refcount = 0 ↔ h = 0 := by
      rw [hrc]
      exact wrap32_eq_zero_iff (by omega) (by omega)
    cases c with
    | map size flags r =>
      rw [countMaps_map] at hmax hbal
      rw [countUnmaps_map] at hbal
      simp only [Nat.cast_add, Nat.cast_one] at hmax hbal
      simp only [runCall] at h1
      have hb1 : b1.mapping_refcount = wrap32 (h + 1) ∧ b1.mapped_virt_addr ≠ NULL ∧
          munmapCount calls1 = 0 := by
        by_cases h0 : b.mapping_refcount = 0
        · rw [map_first fd r b size flags h0] at h1
          by_cases hf : r = MAP_FAILED
          · exfalso
            rw [if_pos hf] at h1
            simp only [Option.some.injEq, Prod.mk.injEq] at h1
            obtain ⟨-, hr1, -⟩ := h1
            exact hsucc NULL (by rw [hr, ← hr1]; simp) rfl
          · rw [if_neg hf] at h1
            simp only [Option.some.injEq, Prod.mk.injEq] at h1
            obtain ⟨hbb, hr1, hc1⟩ := h1
            have hnn : r ≠ NULL := hsucc r (by rw [hr, ← hr1]; simp)
            subst hbb
            subst hc1
            have hh : h = 0 := hzero.mp h0
            subst hh
            exact ⟨by show (1 : Int) = wrap32 (0 + 1); decide, hnn,
              by simp [munmapCount, Syscall.isMunmap]⟩
        · rw [map_later fd r b size flags h0] at h1
          by_cases hc : flagsCompatible b.mapping_flags flags
          · rw [if_pos hc] at h1
            simp only [Option.some.injEq, Prod.mk.injEq] at h1
            obtain ⟨hbb, -, hc1⟩ := h1
            rw [hrc, wrap32_wrap32_succ] at hbb
            subst hbb
            subst hc1
            have hv : b.mapped_virt_addr ≠ NULL := fun hn => h0 (hzero.mpr (hinv.mpr hn))
            exact ⟨rfl, hv, by simp [munmapCount]⟩
          · rw [if_neg hc] at h1
            cases h1
      obtain ⟨hrc1, hv1, hm1⟩ := hb1
      obtain ⟨e1, e2, e3, e4⟩ := ih b1 (h + 1) rets2 calls2 hrc1 (by omega)
        ⟨fun hz => by omega, fun hn => absurd hn hv1⟩
        (by omega) (by omega) h2 hsucc2
      rw [hcl, munmapCount_append, hm1, e3]
      refine ⟨e1, e2, by simp [returnsToZero], ?_⟩
      intro _
      have := e4 (Or.inl (by omega))
      rw [e3] at this
      omega
    | unmap r =>
      rw [countMaps_unmap] at hmax hbal
      rw [countUnmaps_unmap] at hbal
      simp only [Nat.cast_add, Nat.cast_one] at hmax hbal
      simp only [runCall, Option.some.injEq, Prod.mk.injEq] at h1
      obtain ⟨hbb, -, hc1⟩ := h1
      rw [unmap_eq, hrc, wrap32_wrap32_pred] at hbb hc1
      have hz1 : wrap32 (h - 1) = 0 ↔ h - 1 = 0 :=
        wrap32_eq_zero_iff (by omega) (by omega)
      by_cases hz : h = 0
      · -- an unmap without a map: the count goes negative
        exfalso
        rw [if_neg (by rw [hz1]; omega)] at hbb
        dsimp only at hbb
        subst hbb
        have hnomap := runCalls_negative fd cs
          { b with mapping_refcount := wrap32 (h - 1) } b2 (h - 1) rets2 calls2
          rfl (by omega) (hinv.mp hz) (by omega) h2 hsucc2
        omega
      · by_cases hone : h - 1 = 0
        · rw [if_pos (hz1.mpr hone)] at hbb hc1
          dsimp only at hbb hc1
          subst hbb
          subst hc1
          obtain ⟨e1, e2, e3, -⟩ := ih
            { b with mapping_refcount := wrap32 (h - 1), mapped_virt_addr := NULL }
            (h - 1) rets2 calls2 rfl (by omega)
            ⟨fun _ => rfl, fun _ => hone⟩ (by omega) (by omega) h2 hsucc2
          rw [hcl, munmapCount_append, e3]
          refine ⟨e1, e2, by simp [returnsToZero, hone, munmapCount, Syscall.isMunmap], ?_⟩
          intro _
          simp [munmapCount, Syscall.isMunmap]
        · rw [if_neg (by rw [hz1]; exact hone)] at hbb hc1
          dsimp only at hbb hc1
          subst hbb
          subst hc1
          have hv : b.mapped_virt_addr ≠ NULL := fun hn => hz (hinv.mpr hn)
          obtain ⟨e1, e2, e3, e4⟩ := ih
            { b with mapping_refcount := wrap32 (h - 1) }
            (h - 1) rets2 calls2 rfl (by omega)
            ⟨fun hh => absurd hh hone, fun hn => absurd hn hv⟩ (by omega) (by omega)
            h2 hsucc2
          rw [hcl, munmapCount_append, e3]
          refine ⟨e1, e2, by simp [returnsToZero, hone, munmapCount], ?_⟩
          intro _
          have := e4 (Or.inl (by omega))
          rw [e3] at this
          simp only [munmapCount, List.filter_nil, List.length_nil, zero_add]
          exact this

theorem countMaps_append (l1 l2 : List Call) :
    countMaps (l1 ++ l2) = countMaps l1 + countMaps l2 := by
  simp [countMaps]

theorem countUnmaps_append (l1 l2 : List Call) :
    countUnmaps (l1 ++ l2) = countUnmaps l1 + countUnmaps l2 := by
  simp [countUnmaps]

theorem countMaps_replicate_map (n : Nat) (size : Int) (flags : Nat) (r : Int) :
    countMaps (List.replicate n (Call.map size flags r)) = n := by
  induction n with
  | zero => rfl
  | succ n ih => rw [List.replicate_succ, countMaps_map, ih]

theorem countMaps_replicate_unmap (n : Nat) (r : Int) :
    countMaps (List.replicate n (Call.unmap r)) = 0 := by
  induction n with
  | zero => rfl
  | succ n ih => rw [List.replicate_succ, countMaps_unmap, ih]

theorem countUnmaps_replicate_map (n : Nat) (size : Int) (flags : Nat) (r : Int) :
    countUnmaps (List.replicate n (Call.map size flags r)) = 0 := by
  induction n with
  | zero => rfl
  | succ n ih => rw [List.replicate_succ, countUnmaps_map, ih]

theorem countUnmaps_replicate_unmap (n : Nat) (r : Int) :
    countUnmaps (List.replicate n (Call.unmap r)) = n := by
  induction n with
  | zero => rfl
  | succ n ih => rw [List.replicate_succ, countUnmaps_unmap, ih]

/-- 2^32 unmap calls on a fresh block: the refcount goes round the 32-bit range and
is 0 again; the last call issues a `munmap` of the NULL address. -/
theorem runCalls_unmaps_wrap :
    runCalls 3 (freshBlock 4096 1000) (List.replicate 4294967296 (Call.unmap 0)) =
      some (freshBlock 4096 1000, [], [Syscall.munmap 0 4096]) := by
  have hfirst := runCalls_unmaps_below_zero 3 0 4294967295 (freshBlock 4096 1000) 0
    (by decide) (by decide) (by decide)
  rw [show (4294967296 : Nat) = 4294967295 + 1 from rfl, List.replicate_succ',
    runCalls_append, hfirst]
  decide

/-- 2^32 map calls on a fresh block, the `mmap` succeeding: every call returns the
address, and the refcount has gone round the 32-bit range and is 0 again. -/
theorem runCalls_maps_wrap :
    runCalls 3 (freshBlock 4096 1000) (List.replicate 4294967296 (Call.map 4096 1 28672)) =
      some ({ maxsize := 4096, mapped_virt_addr := 28672, phys_addr := 1000,
              mapping_flags := 1, mapping_refcount := 0, internal := 0 },
            List.replicate 4294967296 28672, [Syscall.mmap 0 4096 1 1 3 1000]) := by
  have hfirst := runCalls_maps 3 (freshBlock 4096 1000) 4096 1 28672
    (List.replicate 4294967294 (Call.map 4096 1 28672)) rfl (by decide)
    (fun c hc => ⟨4096, 1, 28672, List.eq_of_mem_replicate hc, Or.inr (by decide)⟩)
    (by rw [List.length_replicate]; decide)
  rw [List.length_replicate] at hfirst
  have hsplit : List.replicate 4294967296 (Call.map 4096 1 28672) =
      (Call.map 4096 1 28672 :: List.replicate 4294967294 (Call.map 4096 1 28672)) ++
        [Call.map 4096 1 28672] := by
    rw [← List.replicate_succ, ← List.replicate_succ']
  rw [hsplit, runCalls_append, hfirst]
  simp only [runCalls_cons, runCall]
  rw [map_later 3 28672 _ 4096 1 (by decide), if_pos (by decide)]
  simp only [runCalls, List.append_nil, Option.some.injEq, Prod.mk.injEq, and_true]
  refine ⟨by decide, ?_⟩
  rw [show (4294967296 : Nat) = 4294967294 + 1 + 1 from rfl, ← List.replicate_succ']
  exact ⟨rfl, by decide⟩

/-- 2^32 unmap calls and then 2^32 map calls on a fresh block. -/
theorem runCalls_unmaps_maps_wrap :
    runCalls 3 (freshBlock 4096 1000)
        (List.replicate 4294967296 (Call.unmap 0) ++
          List.replicate 4294967296 (Call.map 4096 1 28672)) =
      some ({ maxsize := 4096, mapped_virt_addr := 28672, phys_addr := 1000,
              mapping_flags := 1, mapping_refcount := 0, internal := 0 },
            List.replicate 4294967296 28672,
            [Syscall.munmap 0 4096, Syscall.mmap 0 4096 1 1 3 1000]) := by
  have h := runCalls_append_some runCalls_unmaps_wrap runCalls_maps_wrap
  rw [List.nil_append, List.singleton_append] at h
  exact h

/-! ## Single calls -/

/-- C1: for every block state (the refcount a non-negative `gint`, as the data model
has it) in which `mapping_refcount == 0` iff `mapped_virt_addr == NULL`, the state after
`gst_imx_ipu_map_phys_mem` (the `mmap` failing, or succeeding with a non-null address)
and, when `mapping_refcount > 0`, the state after `gst_imx_ipu_unmap_phys_mem`
(whatever `munmap` returns) satisfies the same equivalence; the map call does return
whenever the block is unmapped or the flags pass the assertion. -/
theorem C1_invariant_preserved (b : GstImxPhysMemory)
    (hg : IsGInt b.mapping_refcount) (hnn : 0 ≤ b.mapping_refcount) (hinv : BlockInv b) :
    (∀ (fd mmapRet size : Int) (flags : Nat),
        (mmapRet = MAP_FAILED ∨ mmapRet ≠ NULL) →
        ∀ p b1 calls, gst_imx_ipu_map_phys_mem fd mmapRet b size flags = some (p, b1, calls) →
          BlockInv b1) ∧
    (∀ (fd mmapRet size : Int) (flags : Nat),
        (b.mapping_refcount = 0 ∨ b.mapping_flags &&& GST_MAP_WRITE ≠ 0 ∨
          flags &&& GST_MAP_WRITE = 0) →
        (gst_imx_ipu_map_phys_mem fd mmapRet b size flags).isSome = true) ∧
    (0 < b.mapping_refcount →
        ∀ munmapRet : Int, BlockInv (gst_imx_ipu_unmap_phys_mem munmapRet b).1) := by
  refine ⟨?_, ?_, ?_⟩
  · intro fd mmapRet size flags hret p b1 calls hrun
    by_cases h0 : b.mapping_refcount = 0
    · rw [map_first fd mmapRet b size flags h0] at hrun
      by_cases hf : mmapRet = MAP_FAILED
      · simp only [hf, if_true, Option.some.injEq, Prod.mk.injEq] at hrun
        obtain ⟨-, hb, -⟩ := hrun
        subst hb
        simp [BlockInv]
      · simp only [hf, if_false, Option.some.injEq, Prod.mk.injEq] at hrun
        obtain ⟨-, hb, -⟩ := hrun
        subst hb
        have hnn : mmapRet ≠ NULL := by
          rcases hret with h | h
          · exact absurd h hf
          · exact h
        simp [BlockInv, hnn]
    · rw [map_later fd mmapRet b size flags h0] at hrun
      by_cases hc : flagsCompatible b.mapping_flags flags
      · simp only [hc, if_true, Option.some.injEq, Prod.mk.injEq] at hrun
        obtain ⟨-, hb, -⟩ := hrun
        subst hb
        have h1 := wrap32_succ_ne_zero hg (by omega : b.mapping_refcount ≠ -1)
        have h2 : b.mapped_virt_addr ≠ NULL := fun h => h0 (hinv.mpr h)
        simp [BlockInv, h1, h2]
      · simp [hc] at hrun
  · intro fd mmapRet size flags h
    by_cases h0 : b.mapping_refcount = 0
    · rw [map_first fd mmapRet b size flags h0]
      by_cases hf : mmapRet = MAP_FAILED <;> simp [hf]
    · rw [map_later fd mmapRet b size flags h0]
      have hc : flagsCompatible b.mapping_flags flags := by
        unfold flagsCompatible
        rcases h with h | h | h
        · exact absurd h h0
        · exact Or.inl h
        · exact Or.inr (by simp [h])
      simp [hc]
  · intro hpos munmapRet
    rw [unmap_eq]
    have hp := wrap32_pred hg (by omega : 1 ≤ b.mapping_refcount)
    rw [hp]
    by_cases h1 : b.mapping_refcount - 1 = 0
    · simp [h1, BlockInv]
    · have h2 : b.mapped_virt_addr ≠ NULL := fun h => by
        have := hinv.mpr h
        omega
      simp [h1, BlockInv, h2]

/-- Witness of `C1_invariant_preserved`: a block mapped once, mapped again and
unmapped. -/
theorem C1_invariant_preserved_witness :
    (∀ p b1 calls,
      gst_imx_ipu_map_phys_mem 3 28672
        { maxsize := 4096, mapped_virt_addr := 28672, phys_addr := 1000,
          mapping_flags := 1, mapping_refcount := 1, internal := 0 } 4096 1 =
        some (p, b1, calls) → BlockInv b1) ∧
    BlockInv (gst_imx_ipu_unmap_phys_mem 0
      { maxsize := 4096, mapped_virt_addr := 28672, phys_addr := 1000,
        mapping_flags := 1, mapping_refcount := 1, internal := 0 }).1 :=
  ⟨(C1_invariant_preserved
      { maxsize := 4096, mapped_virt_addr := 28672, phys_addr := 1000,
        mapping_flags := 1, mapping_refcount := 1, internal := 0 }
      (by decide) (by decide) (by decide)).1 3 28672 4096 1 (Or.inr (by decide)),
   (C1_invariant_preserved
      { maxsize := 4096, mapped_virt_addr := 28672, phys_addr := 1000,
        mapping_flags := 1, mapping_refcount := 1, internal := 0 }
      (by decide) (by decide) (by decide)).2.2 (by decide) 0⟩

/-- C4: on an unmapped block (refcount 0), for every size and flags, a failing `mmap`
makes `gst_imx_ipu_map_phys_mem` return NULL with `mapping_refcount == 0` and
`mapped_virt_addr == NULL`, and the map call that follows is a first mapper again: it
returns after issuing exactly one `mmap` of its own. -/
theorem C4_map_failure_rolls_back (fd : Int) (b : GstImxPhysMemory) (size : Int)
    (flags : Nat) (h0 : b.mapping_refcount = 0) :
    ∃ b1 call,
      gst_imx_ipu_map_phys_mem fd MAP_FAILED b size flags = some (NULL, b1, [call]) ∧
      call.isMmap = true ∧
      b1.mapping_refcount = 0 ∧ b1.mapped_virt_addr = NULL ∧
      ∀ (mmapRet2 size2 : Int) (flags2 : Nat), ∃ p b2,
        gst_imx_ipu_map_phys_mem fd mmapRet2 b1 size2 flags2 =
          some (p, b2, [Syscall.mmap 0 size2 (mapProt flags2) MAP_SHARED fd b.phys_addr]) := by
  refine ⟨{ b with mapping_flags := flags, mapped_virt_addr := NULL, mapping_refcount := 0 },
    Syscall.mmap 0 size (mapProt flags) MAP_SHARED fd b.phys_addr, ?_, rfl, rfl, rfl, ?_⟩
  · rw [map_first fd MAP_FAILED b size flags h0]
    simp
  · intro mmapRet2 size2 flags2
    rw [map_first fd mmapRet2 _ size2 flags2 rfl]
    by_cases hf : mmapRet2 = MAP_FAILED
    · rw [if_pos hf]
      exact ⟨_, _, rfl⟩
    · rw [if_neg hf]
      exact ⟨_, _, rfl⟩

/-- Witness of `C4_map_failure_rolls_back`: a freshly allocated block. -/
theorem C4_map_failure_rolls_back_witness :
    (freshBlock 4096 1000).mapping_refcount = 0 ∧
    ∃ b1 call,
      gst_imx_ipu_map_phys_mem 3 MAP_FAILED (freshBlock 4096 1000) 4096 3 =
        some (NULL, b1, [call]) ∧
      call.isMmap = true ∧
      b1.mapping_refcount = 0 ∧ b1.mapped_virt_addr = NULL ∧
      ∀ (mmapRet2 size2 : Int) (flags2 : Nat), ∃ p b2,
        gst_imx_ipu_map_phys_mem 3 mmapRet2 b1 size2 flags2 =
          some (p, b2, [Syscall.mmap 0 size2 (mapProt flags2) MAP_SHARED 3
            (freshBlock 4096 1000).phys_addr]) :=
  ⟨rfl, C4_map_failure_rolls_back 3 (freshBlock 4096 1000) 4096 3 rfl⟩

/-- C5: on an already-mapped block (refcount > 0) whose `mapping_flags` lack Write, a
map call asking for Write fails the assertion and returns nothing; and on every
already-mapped block the call returns, with the existing address, exactly when
`mapping_flags` has Write or the requested flags lack Write. -/
theorem C5_flag_assertion (fd mmapRet : Int) (b : GstImxPhysMemory) (size : Int)
    (flags : Nat) (hpos : 0 < b.mapping_refcount) :
    (b.mapping_flags &&& GST_MAP_WRITE = 0 → flags &&& GST_MAP_WRITE ≠ 0 →
      gst_imx_ipu_map_phys_mem fd mmapRet b size flags = none) ∧
    ((∃ r, gst_imx_ipu_map_phys_mem fd mmapRet b size flags = some r) ↔
      (b.mapping_flags &&& GST_MAP_WRITE ≠ 0 ∨ flags &&& GST_MAP_WRITE = 0)) ∧
    (∀ r, gst_imx_ipu_map_phys_mem fd mmapRet b size flags = some r →
      r.1 = b.mapped_virt_addr) := by
  have h0 : b.mapping_refcount ≠ 0 := by omega
  rw [map_later fd mmapRet b size flags h0]
  unfold flagsCompatible
  refine ⟨?_, ?_, ?_⟩
  · intro h1 h2
    simp [h1, h2]
  · by_cases hc : b.mapping_flags &&& GST_MAP_WRITE ≠ 0 ∨ ¬ (flags &&& GST_MAP_WRITE ≠ 0)
    · rw [if_pos hc]
      simp only [ne_eq, not_not] at hc
      simp [hc]
    · rw [if_neg hc]
      simp only [ne_eq, not_not] at hc
      simp [hc]
  · intro r hr
    by_cases hc : b.mapping_flags &&& GST_MAP_WRITE ≠ 0 ∨ ¬ (flags &&& GST_MAP_WRITE ≠ 0)
    · rw [if_pos hc] at hr
      cases hr
      rfl
    · rw [if_neg hc] at hr
      cases hr

/-- Witness of `C5_flag_assertion`: a block mapped read-only, asked for Write. -/
theorem C5_flag_assertion_witness :
    gst_imx_ipu_map_phys_mem 3 28672
      { maxsize := 4096, mapped_virt_addr := 28672, phys_addr := 1000,
        mapping_flags := 1, mapping_refcount := 1, internal := 0 } 4096 3 = none :=
  (C5_flag_assertion 3 28672
      { maxsize := 4096, mapped_virt_addr := 28672, phys_addr := 1000,
        mapping_flags := 1, mapping_refcount := 1, internal := 0 } 4096 3
      (by decide)).1 (by decide) (by decide)

/-- C6: on a block with `mapping_refcount >= 1` (a `gint`), `gst_imx_ipu_unmap_phys_mem` gives the
same result whatever `munmap` returns (the failure is not reported: there is no failure
result); `mapping_refcount` is decremented by exactly one, and when it reaches 0
`mapped_virt_addr` is NULL. -/
theorem C6_unmap_ignores_munmap_result (b : GstImxPhysMemory)
    (hg : IsGInt b.mapping_refcount) (h1 : 1 ≤ b.mapping_refcount) (r1 r2 : Int) :
    gst_imx_ipu_unmap_phys_mem r1 b = gst_imx_ipu_unmap_phys_mem r2 b ∧
    (gst_imx_ipu_unmap_phys_mem r1 b).1.mapping_refcount = b.mapping_refcount - 1 ∧
    ((gst_imx_ipu_unmap_phys_mem r1 b).1.mapping_refcount = 0 →
      (gst_imx_ipu_unmap_phys_mem r1 b).1.mapped_virt_addr = NULL) := by
  rw [unmap_eq r1, unmap_eq r2, wrap32_pred hg h1]
  by_cases h : b.mapping_refcount - 1 = 0
  · simp [h]
  · simp [h]

/-- Witness of `C6_unmap_ignores_munmap_result`: the last unmap of a block, the
`munmap` succeeding (0) or failing (-1). -/
theorem C6_unmap_ignores_munmap_result_witness :
    gst_imx_ipu_unmap_phys_mem 0
        { maxsize := 4096, mapped_virt_addr := 28672, phys_addr := 1000,
          mapping_flags := 1, mapping_refcount := 1, internal := 0 } =
      gst_imx_ipu_unmap_phys_mem (-1)
        { maxsize := 4096, mapped_virt_addr := 28672, phys_addr := 1000,
          mapping_flags := 1, mapping_refcount := 1, internal := 0 } :=
  (C6_unmap_ignores_munmap_result
      { maxsize := 4096, mapped_virt_addr := 28672, phys_addr := 1000,
        mapping_flags := 1, mapping_refcount := 1, internal := 0 }
      (by decide) (by decide) 0 (-1)).1

/-- C7, as stated, fails: `gst_imx_ipu_alloc_phys_mem` succeeds on a block whose
refcount is 2 and whose address field is set, and leaves both as they were. -/
theorem C7_counterexample :
    gst_imx_ipu_alloc_phys_mem 3 0 402653184
        { maxsize := 4096, mapped_virt_addr := 28672, phys_addr := 0,
          mapping_flags := 1, mapping_refcount := 2, internal := 0 } 4096 =
      (true,
        { maxsize := 4096, mapped_virt_addr := 28672, phys_addr := 402653184,
          mapping_flags := 1, mapping_refcount := 2, internal := 0 },
        [Syscall.ioctl_IPU_ALLOC 3 4096]) ∧
    ¬ ((gst_imx_ipu_alloc_phys_mem 3 0 402653184
        { maxsize := 4096, mapped_virt_addr := 28672, phys_addr := 0,
          mapping_flags := 1, mapping_refcount := 2, internal := 0 } 4096).2.1.mapping_refcount = 0 ∧
      (gst_imx_ipu_alloc_phys_mem 3 0 402653184
        { maxsize := 4096, mapped_virt_addr := 28672, phys_addr := 0,
          mapping_flags := 1, mapping_refcount := 2, internal := 0 } 4096).2.1.mapped_virt_addr = NULL) := by
  decide

/-- C7, amended: for every block and size, when the driver's allocate command succeeds,
`gst_imx_ipu_alloc_phys_mem` returns success with `phys_addr` set to the address the
driver returned and `internal` set to NULL, and leaves `mapping_refcount` and
`mapped_virt_addr` as the caller passed them (0 and NULL when the caller initialised
them so). -/
theorem C7_alloc_success (fd ret : Int) (m_out : Nat) (memory : GstImxPhysMemory)
    (size : Int) (hok : 0 ≤ ret) :
    (gst_imx_ipu_alloc_phys_mem fd ret m_out memory size).1 = true ∧
    (gst_imx_ipu_alloc_phys_mem fd ret m_out memory size).2.1 =
      { memory with phys_addr := m_out, internal := NULL } ∧
    (gst_imx_ipu_alloc_phys_mem fd ret m_out memory size).2.1.mapping_refcount =
      memory.mapping_refcount ∧
    (gst_imx_ipu_alloc_phys_mem fd ret m_out memory size).2.1.mapped_virt_addr =
      memory.mapped_virt_addr := by
  have h : ¬ ret < 0 := by omega
  simp [gst_imx_ipu_alloc_phys_mem, h]

/-- Witness of `C7_alloc_success`: a block the caller initialised, the driver
answering 0. -/
theorem C7_alloc_success_witness :
    (gst_imx_ipu_alloc_phys_mem 3 0 402653184 (freshBlock 4096 0) 4096).1 = true ∧
    (gst_imx_ipu_alloc_phys_mem 3 0 402653184 (freshBlock 4096 0) 4096).2.1.mapping_refcount
      = 0 :=
  ⟨(C7_alloc_success 3 0 402653184 (freshBlock 4096 0) 4096 (by decide)).1,
   (C7_alloc_success 3 0 402653184 (freshBlock 4096 0) 4096 (by decide)).2.2.1⟩

/-- C8: for every block and size, `gst_imx_ipu_alloc_phys_mem` returns failure if and
only if the driver's allocate command returns a negative result, and then `phys_addr`
is 0 whatever it held before and whatever the driver wrote back. -/
theorem C8_alloc_failure (fd ret : Int) (m_out : Nat) (memory : GstImxPhysMemory)
    (size : Int) :
    ((gst_imx_ipu_alloc_phys_mem fd ret m_out memory size).1 = false ↔ ret < 0) ∧
    (ret < 0 → (gst_imx_ipu_alloc_phys_mem fd ret m_out memory size).2.1.phys_addr = 0) := by
  by_cases h : ret < 0 <;> simp [gst_imx_ipu_alloc_phys_mem, h]

/-- Witness of `C8_alloc_failure`: the driver answers -1 after writing an address. -/
theorem C8_alloc_failure_witness :
    (gst_imx_ipu_alloc_phys_mem 3 (-1) 402653184
      { maxsize := 4096, mapped_virt_addr := 0, phys_addr := 77,
        mapping_flags := 0, mapping_refcount := 0, internal := 0 } 4096).2.1.phys_addr = 0 :=
  (C8_alloc_failure 3 (-1) 402653184
      { maxsize := 4096, mapped_virt_addr := 0, phys_addr := 77,
        mapping_flags := 0, mapping_refcount := 0, internal := 0 } 4096).2 (by decide)

/-- C10: a first-mapper call (refcount 0) returns after issuing exactly one `mmap`,
whose protection has PROT_READ exactly when the flags have Read, PROT_WRITE exactly
when the flags have Write and no other bit, whose kind is MAP_SHARED, whose length is
`size` and whose offset is the block's `phys_addr`; `mapping_flags` becomes the
requested flags. -/
theorem C10_first_mapper_mmap_request (fd mmapRet : Int) (b : GstImxPhysMemory)
    (size : Int) (flags : Nat) (h0 : b.mapping_refcount = 0) :
    ∃ p b1 prot,
      gst_imx_ipu_map_phys_mem fd mmapRet b size flags =
        some (p, b1, [Syscall.mmap 0 size prot MAP_SHARED fd b.phys_addr]) ∧
      (prot &&& PROT_READ ≠ 0 ↔ flags &&& GST_MAP_READ ≠ 0) ∧
      (prot &&& PROT_WRITE ≠ 0 ↔ flags &&& GST_MAP_WRITE ≠ 0) ∧
      prot &&& (PROT_READ ||| PROT_WRITE) = prot ∧
      b1.mapping_flags = flags := by
  have hprot : (mapProt flags &&& PROT_READ ≠ 0 ↔ flags &&& GST_MAP_READ ≠ 0) ∧
      (mapProt flags &&& PROT_WRITE ≠ 0 ↔ flags &&& GST_MAP_WRITE ≠ 0) ∧
      mapProt flags &&& (PROT_READ ||| PROT_WRITE) = mapProt flags := by
    rw [mapProt_cases]
    by_cases hr : flags &&& GST_MAP_READ ≠ 0 <;> by_cases hw : flags &&& GST_MAP_WRITE ≠ 0
    · rw [if_pos hr, if_pos hw]
      exact ⟨iff_of_true (by decide) hr, iff_of_true (by decide) hw, by decide⟩
    · rw [if_pos hr, if_neg hw]
      exact ⟨iff_of_true (by decide) hr, iff_of_false (by decide) hw, by decide⟩
    · rw [if_neg hr, if_pos hw]
      exact ⟨iff_of_false (by decide) hr, iff_of_true (by decide) hw, by decide⟩
    · rw [if_neg hr, if_neg hw]
      exact ⟨iff_of_false (by decide) hr, iff_of_false (by decide) hw, by decide⟩
  rw [map_first fd mmapRet b size flags h0]
  by_cases hf : mmapRet = MAP_FAILED
  · rw [if_pos hf]
    exact ⟨_, _, mapProt flags, rfl, hprot.1, hprot.2.1, hprot.2.2, rfl⟩
  · rw [if_neg hf]
    exact ⟨_, _, mapProt flags, rfl, hprot.1, hprot.2.1, hprot.2.2, rfl⟩

/-- Witness of `C10_first_mapper_mmap_request`: a fresh block mapped for reading and
writing. -/
theorem C10_first_mapper_mmap_request_witness :
    (freshBlock 4096 1000).mapping_refcount = 0 ∧
    ∃ p b1 prot,
      gst_imx_ipu_map_phys_mem 3 28672 (freshBlock 4096 1000) 4096 3 =
        some (p, b1, [Syscall.mmap 0 4096 prot MAP_SHARED 3 (freshBlock 4096 1000).phys_addr]) ∧
      (prot &&& PROT_READ ≠ 0 ↔ 3 &&& GST_MAP_READ ≠ 0) ∧
      (prot &&& PROT_WRITE ≠ 0 ↔ 3 &&& GST_MAP_WRITE ≠ 0) ∧
      prot &&& (PROT_READ ||| PROT_WRITE) = prot ∧
      b1.mapping_flags = 3 :=
  ⟨rfl, C10_first_mapper_mmap_request 3 28672 (freshBlock 4096 1000) 4096 3 rfl⟩

/-! ## Sequences of calls -/

/-- C3, as stated, fails at N = 2^31: after 2^31 map calls in a row on a fresh block
(every call returns, the `mmap` of the first having succeeded) the 32-bit refcount has
wrapped to -2^31; it is not N. -/
theorem C3_counterexample :
    ∃ b1 rets calls,
      runCalls 3 (freshBlock 4096 1000)
        (List.replicate 2147483648 (Call.map 4096 1 28672)) = some (b1, rets, calls) ∧
      b1.mapping_refcount = -2147483648 ∧
      b1.mapping_refcount ≠ 2147483648 := by
  have hfirst := runCalls_maps 3 (freshBlock 4096 1000) 4096 1 28672
    (List.replicate 2147483647 (Call.map 4096 1 28672)) rfl (by decide)
    (fun c hc => ⟨4096, 1, 28672, List.eq_of_mem_replicate hc, Or.inr (by decide)⟩)
    (by rw [List.length_replicate]; decide)
  rw [List.length_replicate] at hfirst
  rw [show (2147483648 : Nat) = 2147483647 + 1 from rfl, List.replicate_succ, hfirst]
  exact ⟨_, _, _, rfl, by decide, by decide⟩

/-- C3, amended: for every N with 1 <= N <= 2^31 - 1, N map calls in a row on a newly
allocated block (refcount 0), the `mmap` succeeding with address `A` and the later calls
asking for Write only if the first did, all return; exactly one `mmap` is issued, by the
first call; all N calls return `A`; `mapping_refcount` ends at N; and a call made while
`mapping_refcount > 0` issues no system call and changes neither `mapped_virt_addr` nor
`mapping_flags`. -/
theorem C3_repeated_maps_share_one_mmap (fd : Int) (b : GstImxPhysMemory) (size0 : Int)
    (flags0 : Nat) (A : Int) (rest : List Call)
    (h0 : b.mapping_refcount = 0) (hA : A ≠ MAP_FAILED)
    (hrest : ∀ c ∈ rest, ∃ size flags r, c = Call.map size flags r ∧
      (flags0 &&& GST_MAP_WRITE ≠ 0 ∨ flags &&& GST_MAP_WRITE = 0))
    (hN : (rest.length : Int) + 1 ≤ 2147483647) :
    (∃ b1,
      runCalls fd b (Call.map size0 flags0 A :: rest) =
        some (b1, List.replicate (rest.length + 1) A,
              [Syscall.mmap 0 size0 (mapProt flags0) MAP_SHARED fd b.phys_addr]) ∧
      b1.mapping_refcount = (rest.length : Int) + 1 ∧
      b1.mapped_virt_addr = A ∧ b1.mapping_flags = flags0) ∧
    (∀ (b2 : GstImxPhysMemory) (mmapRet size : Int) (flags : Nat) p b3 calls,
      0 < b2.mapping_refcount →
      gst_imx_ipu_map_phys_mem fd mmapRet b2 size flags = some (p, b3, calls) →
      calls = [] ∧ p = b2.mapped_virt_addr ∧ b3.mapped_virt_addr = b2.mapped_virt_addr ∧
        b3.mapping_flags = b2.mapping_flags) := by
  have hw : wrap32 ((rest.length : Int) + 1) = (rest.length : Int) + 1 := by
    apply wrap32_eq_self
    unfold IsGInt G_MININT G_MAXINT
    constructor <;> omega
  refine ⟨⟨_, runCalls_maps fd b size0 flags0 A rest h0 hA hrest (by omega), hw, rfl, rfl⟩, ?_⟩
  intro b2 mmapRet size flags p b3 calls hpos hrun
  rw [map_later fd mmapRet b2 size flags (by omega)] at hrun
  by_cases hc : flagsCompatible b2.mapping_flags flags
  · rw [if_pos hc] at hrun
    simp only [Option.some.injEq, Prod.mk.injEq] at hrun
    obtain ⟨hp, hb, hcalls⟩ := hrun
    subst hb
    exact ⟨hcalls.symm, hp.symm, rfl, rfl⟩
  · rw [if_neg hc] at hrun
    cases hrun

/-- Witness of `C3_repeated_maps_share_one_mmap`: three map calls on a fresh block, the
first for reading and writing. -/
theorem C3_repeated_maps_share_one_mmap_witness :
    ∃ b1,
      runCalls 3 (freshBlock 4096 1000)
        [Call.map 4096 3 28672, Call.map 4096 1 0, Call.map 4096 3 0] =
        some (b1, [28672, 28672, 28672],
              [Syscall.mmap 0 4096 3 MAP_SHARED 3 1000]) ∧
      b1.mapping_refcount = 3 ∧ b1.mapped_virt_addr = 28672 ∧ b1.mapping_flags = 3 :=
  (C3_repeated_maps_share_one_mmap 3 (freshBlock 4096 1000) 4096 3 28672
    [Call.map 4096 1 0, Call.map 4096 3 0] rfl (by decide)
    (by
      intro c hc
      simp only [List.mem_cons, List.mem_singleton, List.not_mem_nil, or_false] at hc
      rcases hc with h | h
      · exact ⟨4096, 1, 0, h, Or.inl (by decide)⟩
      · exact ⟨4096, 3, 0, h, Or.inl (by decide)⟩)
    (by decide)).1

/-- C2, as stated, fails twice. Map, unmap, map, unmap on a fresh block is an
interleaving of two successful map calls and two unmap calls, and it issues two `munmap`
system calls, one each time the refcount comes back to 0. And for N = 2^32, N unmap
calls followed by N map calls, every one of which returns the mapped address, leave the
refcount at 0 (the 32-bit counter has gone all the way down and all the way up again)
with the address still recorded. -/
theorem C2_counterexample :
    (runCalls 3 (freshBlock 4096 1000)
        [Call.map 4096 3 28672, Call.unmap 0, Call.map 4096 3 28672, Call.unmap 0] =
      some ({ maxsize := 4096, mapped_virt_addr := 0, phys_addr := 1000,
              mapping_flags := 3, mapping_refcount := 0, internal := 0 },
            [28672, 28672],
            [Syscall.mmap 0 4096 3 1 3 1000, Syscall.munmap 28672 4096,
             Syscall.mmap 0 4096 3 1 3 1000, Syscall.munmap 28672 4096]) ∧
     countMaps [Call.map 4096 3 28672, Call.unmap 0, Call.map 4096 3 28672, Call.unmap 0] = 2 ∧
     countUnmaps [Call.map 4096 3 28672, Call.unmap 0, Call.map 4096 3 28672, Call.unmap 0] = 2 ∧
     munmapCount [Syscall.mmap 0 4096 3 1 3 1000, Syscall.munmap 28672 4096,
                  Syscall.mmap 0 4096 3 1 3 1000, Syscall.munmap 28672 4096] = 2) ∧
    (∃ b2 rets syscalls,
      runCalls 3 (freshBlock 4096 1000)
        (List.replicate 4294967296 (Call.unmap 0) ++
          List.replicate 4294967296 (Call.map 4096 1 28672)) = some (b2, rets, syscalls) ∧
      countMaps (List.replicate 4294967296 (Call.unmap 0) ++
          List.replicate 4294967296 (Call.map 4096 1 28672)) = 4294967296 ∧
      countUnmaps (List.replicate 4294967296 (Call.unmap 0) ++
          List.replicate 4294967296 (Call.map 4096 1 28672)) = 4294967296 ∧
      (∀ p ∈ rets, p ≠ NULL) ∧
      b2.mapping_refcount = 0 ∧ b2.mapped_virt_addr = 28672 ∧ b2.mapped_virt_addr ≠ NULL) := by
  refine ⟨by decide,
    { maxsize := 4096, mapped_virt_addr := 28672, phys_addr := 1000,
      mapping_flags := 1, mapping_refcount := 0, internal := 0 },
    List.replicate 4294967296 28672,
    [Syscall.munmap 0 4096, Syscall.mmap 0 4096 1 1 3 1000],
    ?_, ?_, ?_, ?_, rfl, rfl, by decide⟩
  · exact runCalls_unmaps_maps_wrap
  · rw [countMaps_append, countMaps_replicate_unmap, countMaps_replicate_map]
  · rw [countUnmaps_append, countUnmaps_replicate_unmap, countUnmaps_replicate_map]
  · intro p hp
    rw [List.eq_of_mem_replicate hp]
    decide

/-- C2, amended: for every N with 1 <= N <= 2^32 - 1, after N successful map calls
(each returned a non-null address) and N unmap calls on a freshly allocated block
(refcount 0, address NULL), in any interleaving of those 2N calls,
`mapping_refcount == 0` and `mapped_virt_addr == NULL`, and one `munmap` system call
was issued for each unmap call that brought the number of unmaps up to the number of
maps made so far: at least one, and exactly one when only the last unmap does so. -/
theorem C2_balanced_calls_end_unmapped (fd : Int) (b b2 : GstImxPhysMemory) (N : Nat)
    (calls : List Call) (rets : List Int) (syscalls : List Syscall)
    (hrc : b.mapping_refcount = 0) (hv : b.mapped_virt_addr = NULL)
    (hN1 : 1 ≤ N) (hNmax : N ≤ 4294967295)
    (hmaps : countMaps calls = N) (hunmaps : countUnmaps calls = N)
    (hrun : runCalls fd b calls = some (b2, rets, syscalls))
    (hsucc : ∀ p ∈ rets, p ≠ NULL) :
    b2.mapping_refcount = 0 ∧ b2.mapped_virt_addr = NULL ∧
    munmapCount syscalls = returnsToZero 0 calls ∧
    1 ≤ munmapCount syscalls := by
  obtain ⟨e1, e2, e3, e4⟩ := runCalls_balanced fd calls b b2 0 rets syscalls
    (by rw [hrc]; decide) (le_refl 0) ⟨fun _ => hv, fun _ => rfl⟩
    (by rw [hmaps]; omega) (by rw [hmaps, hunmaps]; simp) hrun hsucc
  exact ⟨e1, e2, e3, e4 (Or.inr (by omega))⟩

/-- Witness of `C2_balanced_calls_end_unmapped`: map, map, unmap, map, unmap, unmap on a
fresh block; the refcount comes back to 0 at the last unmap only. -/
theorem C2_balanced_calls_end_unmapped_witness :
    runCalls 3 (freshBlock 4096 1000)
        [Call.map 4096 3 28672, Call.map 4096 1 0, Call.unmap 0, Call.map 4096 3 0,
         Call.unmap (-1), Call.unmap 0] =
      some ({ maxsize := 4096, mapped_virt_addr := 0, phys_addr := 1000,
              mapping_flags := 3, mapping_refcount := 0, internal := 0 },
            [28672, 28672, 28672],
            [Syscall.mmap 0 4096 3 1 3 1000, Syscall.munmap 28672 4096]) ∧
    munmapCount [Syscall.mmap 0 4096 3 1 3 1000, Syscall.munmap 28672 4096] =
      returnsToZero 0 [Call.map 4096 3 28672, Call.map 4096 1 0, Call.unmap 0,
        Call.map 4096 3 0, Call.unmap (-1), Call.unmap 0] ∧
    munmapCount [Syscall.mmap 0 4096 3 1 3 1000, Syscall.munmap 28672 4096] = 1 :=
  ⟨by decide,
   (C2_balanced_calls_end_unmapped 3 (freshBlock 4096 1000)
      { maxsize := 4096, mapped_virt_addr := 0, phys_addr := 1000,
        mapping_flags := 3, mapping_refcount := 0, internal := 0 } 3
      [Call.map 4096 3 28672, Call.map 4096 1 0, Call.unmap 0, Call.map 4096 3 0,
       Call.unmap (-1), Call.unmap 0]
      [28672, 28672, 28672] [Syscall.mmap 0 4096 3 1 3 1000, Syscall.munmap 28672 4096]
      rfl rfl (by decide) (by decide) (by decide) (by decide) (by decide)
      (by decide)).2.2.1,
   by decide⟩

/-! ## Two threads -/

/-- C9, the code at the failing schedule: thread A makes the atomic increment (it is the
first mapper) and is preempted before it takes the mutex; thread B runs its whole call
(increment, assertion, load of `mapped_virt_addr`) and returns NULL; thread A then maps
and returns the address. One `mmap` was issued, but the two calls returned different
pointers, one of them NULL. -/
theorem C9_second_mapper_returns_null :
    runSchedule 3 (twoMappers (freshBlock 4096 1000) 4096 1 28672 4096 1 28672)
        [false, true, true, true, false, false, false, false, false, false, false] =
      some { shared := { block := { maxsize := 4096, mapped_virt_addr := 28672,
                                    phys_addr := 1000, mapping_flags := 1,
                                    mapping_refcount := 2, internal := 0 }
                         mutexOwner := none
                         calls := [Syscall.mmap 0 4096 1 1 3 1000] }
             threadA := { size := 4096, flags := 1, mmapRet := 28672,
                          pc := Pc.returned 28672 }
             threadB := { size := 4096, flags := 1, mmapRet := 28672,
                          pc := Pc.returned 0 } } := by
  decide

end GstImxIpu
